import Mathlib

/-!
Shallow embedding of the retrieval core of the NineToFive legal-RAG backend:
`backend/retrieval.py` (query classification, exact-match section lookup,
progressive deepening, reranking, relevance and citation verification),
`backend/core.py` (in-memory response cache) and `backend/cache_service.py`
(Redis-backed response cache).

Conventions of the embedding:
* Python strings are modelled as `String`; all character-level work
  (lowercasing, substring tests, regex scans) is done over `List Char`.
* Python floats (vector distances, confidences, coverage ratios) are
  modelled as exact rationals `ℚ`; literal constants are written with
  `mkRat` so they evaluate.
* `re.findall` calls are modelled by hand-rolled scanners that advance one
  character at a time and, on a match, jump past the matched text, exactly
  like the non-overlapping left-to-right scan of the `re` module.
* External collaborators (the sharded vector store, the FlashRank
  reranker, the LLM query expander, the Redis client) are abstracted as
  function-valued parameters, so theorems quantify over their behaviour.
-/

/-- Python `str.lower()` over the ASCII inputs in scope. -/
def lowerL (s : List Char) : List Char := s.map Char.toLower

/-- Python `str.upper()` over the ASCII inputs in scope. -/
def upperL (s : List Char) : List Char := s.map Char.toUpper

/-- Python substring test `needle in haystack`. -/
def substrL (needle : List Char) : List Char → Bool
  | [] => needle.isEmpty
  | c :: t => needle.isPrefixOf (c :: t) || substrL needle t

/-- Helper for `wordsL`: accumulates the current word (reversed). -/
def wordsAux : List Char → List Char → List (List Char)
  | [], acc => if acc.isEmpty then [] else [acc.reverse]
  | c :: t, acc =>
    if c.isWhitespace then
      if acc.isEmpty then wordsAux t [] else acc.reverse :: wordsAux t []
    else wordsAux t (c :: acc)

/-- Python `str.split()` with no argument: maximal runs of non-whitespace. -/
def wordsL (s : List Char) : List (List Char) := wordsAux s []

/-- Python `re` word character (`\w`) over the ASCII inputs in scope. -/
def wordChar (c : Char) : Bool := c.isAlphanum || c = '_'

/-- Whether an optional preceding character admits a `\b` boundary. -/
def notWordCharOpt : Option Char → Bool
  | none => true
  | some p => !(wordChar p)

/-- Whether the next character (if any) admits a `\b` boundary. -/
def noWordCharHead : List Char → Bool
  | [] => true
  | c :: _ => !(wordChar c)

/-- Case-insensitive literal match at the head of the input; returns the
matched text exactly as it occurs together with the rest of the input. -/
def matchLitCI : List Char → List Char → Option (List Char × List Char)
  | [], s => some ([], s)
  | _ :: _, [] => none
  | w :: ws, c :: cs =>
    if c.toLower = w.toLower then
      (matchLitCI ws cs).map (fun r => (c :: r.1, r.2))
    else none

/-- Matches a nonempty maximal run of characters satisfying `p` (the greedy
`p+` of a regex whose continuation cannot re-enter `p`). -/
def takeWhile1 (p : Char → Bool) (s : List Char) : Option (List Char × List Char) :=
  let t := s.takeWhile p
  if t.isEmpty then none else some (t, s.drop t.length)

/-- First alternative of an alternation that matches at the head (the `re`
module commits to the leftmost alternative; no listed alternative is a
proper prefix of a later one in the patterns of this code base, except
`bns` before `bnss`, where the regex also commits to `bns`). -/
def matchAlt (alts : List (List Char)) (s : List Char) : Option (List Char × List Char) :=
  match alts with
  | [] => none
  | a :: rest => if a.isPrefixOf s then some (a, s.drop a.length) else matchAlt rest s

/-- Non-overlapping left-to-right scan, as `re.findall`: try the matcher at
each position; on success emit the match and resume after it. All matchers
in scope consume at least one character, and the fuel is the input length
plus one, so the fuel never runs out. -/
def scanAll (m : List Char → Option (List Char × List Char)) :
    Nat → List Char → List (List Char)
  | 0, _ => []
  | _, [] => []
  | fuel + 1, c :: tail =>
    match m (c :: tail) with
    | some (t, rest) => t :: scanAll m fuel rest
    | none => scanAll m fuel tail

/-- All matches of `m` in `s` (Python `re.findall`). -/
def findAll (m : List Char → Option (List Char × List Char)) (s : List Char) :
    List (List Char) :=
  scanAll m (s.length + 1) s

/-- Variant of `scanAll` for patterns that begin with a `\b` boundary: the
matcher also receives the character preceding the current position. -/
def scanAllP (m : Option Char → List Char → Option (List Char × List Char)) :
    Nat → Option Char → List Char → List (List Char)
  | 0, _, _ => []
  | _, _, [] => []
  | fuel + 1, prev, c :: tail =>
    match m prev (c :: tail) with
    | some (t, rest) => t :: scanAllP m fuel (t.getLast?) rest
    | none => scanAllP m fuel (some c) tail

/-- All matches of a boundary-aware matcher (Python `re.findall`). -/
def findAllP (m : Option Char → List Char → Option (List Char × List Char))
    (s : List Char) : List (List Char) :=
  scanAllP m (s.length + 1) none s

/-- Matcher for `word\s+\d+` with an optional trailing `[a-z]` when
`optLetter` is set — the patterns `section\s+\d+[a-z]?`, `article\s+\d+`
and `chapter\s+\d+` of `check_context_relevance` (run on lowercased
text). -/
def matchLegalNum (word : List Char) (optLetter : Bool) (s : List Char) :
    Option (List Char × List Char) :=
  match matchLitCI word s with
  | none => none
  | some (w, r1) =>
    match takeWhile1 Char.isWhitespace r1 with
    | none => none
    | some (ws, r2) =>
      match takeWhile1 Char.isDigit r2 with
      | none => none
      | some (ds, r3) =>
        if optLetter then
          match r3 with
          | c :: cs => if c.isLower then some (w ++ ws ++ ds ++ [c], cs) else some (w ++ ws ++ ds, r3)
          | [] => some (w ++ ws ++ ds, [])
        else some (w ++ ws ++ ds, r3)

/-- Matcher for `\d{4}` (the year pattern of `check_context_relevance`). -/
def matchFourDigits (s : List Char) : Option (List Char × List Char) :=
  match s with
  | a :: b :: c :: d :: rest =>
    if a.isDigit && b.isDigit && c.isDigit && d.isDigit then some ([a, b, c, d], rest)
    else none
  | _ => none

/-- Matcher for `\b[a-z]{4,}\b` at one position: a maximal lowercase-letter
run of length at least 4 whose neighbours are not word characters. A run
failing either boundary admits no match anywhere inside it, since `[a-z]`
runs have no internal `\b`, which is why the matcher may reject the whole
run and let the scan move on. -/
def matchContentWord (prev : Option Char) (s : List Char) :
    Option (List Char × List Char) :=
  if notWordCharOpt prev then
    let run := s.takeWhile Char.isLower
    let rest := s.drop run.length
    if run.length ≥ 4 && noWordCharHead rest then some (run, rest) else none
  else none

/-- Alternation of the legal-term words of `analyze_query_complexity`, in
the order they appear in the regex. -/
def legalTermWords : List (List Char) :=
  ["section".toList, "article".toList, "clause".toList, "act".toList,
   "code".toList, "rule".toList, "regulation".toList, "amendment".toList]

/-- Matcher for the keyword pattern of `analyze_query_complexity`:
`\b(?:section|article|clause|act|code|rule|regulation|amendment)\s+\d+[a-z]?\b`
run on the lowercased query. The trailing `\b` is resolved exactly as the
backtracking engine does: a digit-letter-wordchar tail admits no match at
all, since every shorter split also lacks a boundary. -/
def matchLegalTerm (prev : Option Char) (s : List Char) :
    Option (List Char × List Char) :=
  if notWordCharOpt prev then
    match matchAlt legalTermWords s with
    | none => none
    | some (w, r1) =>
      match takeWhile1 Char.isWhitespace r1 with
      | none => none
      | some (ws, r2) =>
        match takeWhile1 Char.isDigit r2 with
        | none => none
        | some (ds, r3) =>
          match r3 with
          | [] => some (w ++ ws ++ ds, [])
          | c :: cs =>
            if c.isLower then
              if noWordCharHead cs then some (w ++ ws ++ ds ++ [c], cs) else none
            else if wordChar c then none
            else some (w ++ ws ++ ds, r3)
  else none

/-- Matcher for the citation patterns of `verify_legal_citations`:
`Word\s+\d+[A-Za-z]?(?:\([^)]+\))?` with `re.IGNORECASE` (the chapter
pattern omits the parenthesised group). Returns the text as it occurs. -/
def matchCitation (word : List Char) (withParens : Bool) (s : List Char) :
    Option (List Char × List Char) :=
  match matchLitCI word s with
  | none => none
  | some (w, r1) =>
    match takeWhile1 Char.isWhitespace r1 with
    | none => none
    | some (ws, r2) =>
      match takeWhile1 Char.isDigit r2 with
      | none => none
      | some (ds, r3) =>
        let core :=
          match r3 with
          | c :: cs => if c.isAlpha then (w ++ ws ++ ds ++ [c], cs) else (w ++ ws ++ ds, r3)
          | [] => (w ++ ws ++ ds, ([] : List Char))
        if withParens then
          match core.2 with
          | '(' :: cs =>
            match takeWhile1 (fun c => c ≠ ')') cs with
            | some (inner, r5) =>
              match r5 with
              | ')' :: r6 => some (core.1 ++ '(' :: (inner ++ [')']), r6)
              | _ => some core
            | none => some core
          | _ => some core
        else some core

/-- Helper for `dedupFirst`, carrying the set of already emitted strings. -/
def dedupFirstAux : List String → List String → List String
  | [], _ => []
  | x :: xs, seen =>
    if seen.contains x then dedupFirstAux xs seen
    else x :: dedupFirstAux xs (x :: seen)

/-- Keeps the first occurrence of each string (models a Python `set` built
by successive `update` calls, with a deterministic order). -/
def dedupFirst (l : List String) : List String := dedupFirstAux l []

/-- Word-boundary search `re.search(r'\bACRO\b', text)` used by
`search_uploads_index` on the uppercased query. -/
def wordBoundedAux (needle : List Char) : Option Char → List Char → Bool
  | _, [] => false
  | prev, c :: tail =>
    (notWordCharOpt prev && needle.isPrefixOf (c :: tail)
      && noWordCharHead ((c :: tail).drop needle.length))
    || wordBoundedAux needle (some c) tail

/-- Whether `needle` occurs in `haystack` delimited by `\b` on both sides. -/
def wordBounded (needle haystack : List Char) : Bool :=
  wordBoundedAux needle none haystack

/-! ### Query classification (`analyze_query_complexity`) -/

/-- Indicator list `complex_indicators` of `analyze_query_complexity`. -/
def complex_indicators : List String :=
  ["explain", "analyze", "compare", "contrast", "difference", "between",
   "why", "how does", "what are the implications", "discuss", "elaborate",
   "relationship", "impact", "effect", "consequence", "versus", "vs"]

/-- Indicator list `procedural_indicators` of `analyze_query_complexity`. -/
def procedural_indicators : List String :=
  ["procedure", "process", "steps", "how to", "method", "way to",
   "file", "apply", "register", "obtain", "submit"]

/-- Indicator list `comparative_indicators` of `analyze_query_complexity`. -/
def comparative_indicators : List String :=
  ["compare", "contrast", "difference", "between", "versus", "vs",
   "similar", "different", "both", "either"]

/-- Indicator list `simple_indicators` of `analyze_query_complexity`. -/
def simple_indicators : List String :=
  ["what is", "define", "who is", "when", "where", "which section",
   "section", "article", "clause", "punishment", "penalty"]

/-- Python `sum(1 for ind in indicators if ind in query_lower)`. -/
def countIndicators (inds : List String) (q_lower : List Char) : Nat :=
  (inds.filter (fun ind => substrL ind.toList q_lower)).length

/-- Keyword extraction of `analyze_query_complexity`:
`re.findall(r'\b(?:section|...|amendment)\s+\d+[a-z]?\b', query_lower)`. -/
def extractLegalTerms (q_lower : List Char) : List String :=
  (findAllP matchLegalTerm q_lower).map (fun cs => (⟨cs⟩ : String))

/-- Result dictionary of `analyze_query_complexity`. -/
structure QueryComplexity where
  qtype : String
  confidence : ℚ
  keywords : List String
  word_count : Nat
deriving DecidableEq

/-- Translation of `analyze_query_complexity` (retrieval.py:133). -/
def analyze_query_complexity (query : String) : QueryComplexity :=
  let query_lower := lowerL query.toList
  let complex_count := countIndicators complex_indicators query_lower
  let procedural_count := countIndicators procedural_indicators query_lower
  let comparative_count := countIndicators comparative_indicators query_lower
  let simple_count := countIndicators simple_indicators query_lower
  let word_count := (wordsL query.toList).length
  let tc : String × ℚ :=
    if comparative_count ≥ 2 || substrL "compare".toList query_lower then
      ("comparative", min (mkRat 9 10) (mkRat 6 10 + (comparative_count : ℚ) * mkRat 1 10))
    else if complex_count ≥ 2 || word_count > 15 then
      ("complex", min (mkRat 9 10)
        (mkRat 5 10 + (complex_count : ℚ) * mkRat 1 10 + ((word_count : ℚ) - 10) * mkRat 2 100))
    else if procedural_count ≥ 1 then
      ("procedural", min (mkRat 9 10) (mkRat 6 10 + (procedural_count : ℚ) * mkRat 15 100))
    else if simple_count ≥ 1 && word_count < 10 then
      ("simple", min (mkRat 9 10) (mkRat 7 10 + (simple_count : ℚ) * mkRat 1 10))
    else if word_count > 12 then ("complex", mkRat 6 10)
    else ("simple", mkRat 5 10)
  { qtype := tc.1, confidence := tc.2,
    keywords := extractLegalTerms query_lower, word_count := word_count }

/-- Spec-side restatement of the five-step classification cascade, written
from the specification's own wording (section 4.1, rules 1–5), to be
compared with the source translation `analyze_query_complexity`. -/
def classifySpec (query : String) : String × ℚ :=
  let q := lowerL query.toList
  let comparativeCount := countIndicators comparative_indicators q
  let complexCount := countIndicators complex_indicators q
  let proceduralCount := countIndicators procedural_indicators q
  let simpleCount := countIndicators simple_indicators q
  let wc := (wordsL query.toList).length
  if comparativeCount ≥ 2 ∨ substrL "compare".toList q = true then
    ("comparative", min (mkRat 9 10) (mkRat 6 10 + (comparativeCount : ℚ) * mkRat 1 10))
  else if complexCount ≥ 2 ∨ wc > 15 then
    ("complex", min (mkRat 9 10)
      (mkRat 5 10 + (complexCount : ℚ) * mkRat 1 10 + ((wc : ℚ) - 10) * mkRat 2 100))
  else if proceduralCount ≥ 1 then
    ("procedural", min (mkRat 9 10) (mkRat 6 10 + (proceduralCount : ℚ) * mkRat 15 100))
  else if simpleCount ≥ 1 ∧ wc < 10 then
    ("simple", min (mkRat 9 10) (mkRat 7 10 + (simpleCount : ℚ) * mkRat 1 10))
  else if wc > 12 then ("complex", mkRat 6 10)
  else ("simple", mkRat 5 10)

/-- Python truthiness of the optional `category_tag` string argument. -/
def truthyTag : Option String → Bool
  | none => false
  | some s => s ≠ ""

/-- Translation of `determine_chunk_count` (retrieval.py:204). -/
def determine_chunk_count (qc : QueryComplexity) (category_tag : Option String) : Nat :=
  let base :=
    if qc.qtype = "simple" then 3
    else if qc.qtype = "complex" then 6
    else if qc.qtype = "comparative" then 8
    else if qc.qtype = "procedural" then 5
    else 4
  let c1 := if qc.confidence > mkRat 8 10 then base + 1 else base
  let c2 := if truthyTag category_tag then max 3 (c1 - 1) else c1
  min c2 10

/-! ### Context relevance (`check_context_relevance`) -/

/-- Alternation `ipc|bns|crpc|bnss|iea|bsa` of `check_context_relevance`,
in regex order (so `bnss` in a query matches as `bns`, exactly as the
leftmost-alternative rule of `re` dictates). -/
def actAcronyms : List (List Char) :=
  ["ipc".toList, "bns".toList, "crpc".toList, "bnss".toList, "iea".toList, "bsa".toList]

/-- Stopword set `common_words` of `check_context_relevance`. -/
def common_words : List String :=
  ["what", "when", "where", "which", "about", "under", "does", "mean",
   "explain", "tell", "define"]

/-- Keyword extraction of `check_context_relevance`: the five legal
patterns followed by the content words, collected into a set (modelled as
a first-occurrence deduplicated list). -/
def queryKeywords (query : String) : List String :=
  let q := lowerL query.toList
  let pat1 := findAll (matchLegalNum "section".toList true) q
  let pat2 := findAll (matchLegalNum "article".toList false) q
  let pat3 := findAll (matchLegalNum "chapter".toList false) q
  let pat4 := findAll (matchAlt actAcronyms) q
  let pat5 := findAll matchFourDigits q
  let contentWords := (findAllP matchContentWord q).filter
    (fun w => !(common_words.contains (⟨w⟩ : String)))
  dedupFirst ((pat1 ++ pat2 ++ pat3 ++ pat4 ++ pat5 ++ contentWords).map
    (fun cs => (⟨cs⟩ : String)))

/-- Result dictionary of `check_context_relevance`. -/
structure RelevanceResult where
  is_relevant : Bool
  confidence : ℚ
  missing_keywords : List String
deriving DecidableEq

/-- Type-specific minimum coverage thresholds of `check_context_relevance`
(the dictionary `min_coverage` with default `0.5`). -/
def min_coverage (t : String) : ℚ :=
  if t = "simple" then mkRat 7 10
  else if t = "complex" then mkRat 5 10
  else if t = "comparative" then mkRat 4 10
  else if t = "procedural" then mkRat 6 10
  else mkRat 5 10

/-- Translation of `check_context_relevance` (retrieval.py:387). The
keywords are extracted from the lowercased query, so they are already
lowercase and are tested verbatim against the lowercased context. -/
def check_context_relevance (query context : String) (qc : QueryComplexity) :
    RelevanceResult :=
  let context_lower := lowerL context.toList
  let query_keywords := queryKeywords query
  let found := query_keywords.filter (fun k => substrL k.toList context_lower)
  let missing := query_keywords.filter (fun k => !(substrL k.toList context_lower))
  if query_keywords.isEmpty then ⟨true, mkRat 1 2, []⟩
  else
    let coverage : ℚ := mkRat found.length query_keywords.length
    let required := min_coverage qc.qtype
    ⟨decide (coverage ≥ required), coverage, missing⟩

/-- Condition under which `retrieve_context` (retrieval.py:731) triggers
the adaptive deep search after the relevance check. -/
def adaptiveTrigger (r : RelevanceResult) : Bool :=
  (!r.is_relevant) && !r.missing_keywords.isEmpty

/-! ### Citation verification (`verify_legal_citations`) -/

/-- Per-type counts attached to the verifier's report. -/
structure CitationStats where
  articles_cited : Nat
  sections_cited : Nat
  chapters_cited : Nat
deriving DecidableEq

/-- Result dictionary of `verify_legal_citations`. -/
structure CitationReport where
  valid : Bool
  violations : List String
  warning : String
  stats : CitationStats
deriving DecidableEq

/-- Python `set(re.findall(pattern, text, re.IGNORECASE))` for one of the
three citation patterns. -/
def findCitations (word : List Char) (withParens : Bool) (s : String) :
    List String :=
  dedupFirst ((findAll (matchCitation word withParens) s.toList).map
    (fun cs => (⟨cs⟩ : String)))

/-- Case-insensitive membership `any(c.lower() == ctx.lower() for ctx in ...)`. -/
def lowerEqMem (c : String) (ctx : List String) : Bool :=
  ctx.any (fun d => lowerL c.toList = lowerL d.toList)

/-- Warning text appended when violations are found. -/
def citationWarning : String :=
  "\n\nWARNING: This response may contain inaccurate legal citations. Please verify independently."

/-- Translation of `verify_legal_citations` (retrieval.py:449). -/
def verify_legal_citations (response context : String) : CitationReport :=
  let respArticles := findCitations "article".toList true response
  let respSections := findCitations "section".toList true response
  let respChapters := findCitations "chapter".toList false response
  let ctxArticles := findCitations "article".toList true context
  let ctxSections := findCitations "section".toList true context
  let ctxChapters := findCitations "chapter".toList false context
  let violations :=
    (respArticles.filter (fun c => !(lowerEqMem c ctxArticles))).map
      (fun c => "HALLUCINATED: " ++ c ++ " cited but not found in context")
    ++ (respSections.filter (fun c => !(lowerEqMem c ctxSections))).map
      (fun c => "HALLUCINATED: " ++ c ++ " cited but not found in context")
    ++ (respChapters.filter (fun c => !(lowerEqMem c ctxChapters))).map
      (fun c => "HALLUCINATED: " ++ c ++ " cited but not found in context")
  { valid := violations.isEmpty,
    violations := violations,
    warning := if violations.isEmpty then "" else citationWarning,
    stats := ⟨respArticles.length, respSections.length, respChapters.length⟩ }

/-- Spec-side statement: every citation of the answer occurs, compared
case-insensitively and per pattern type, among the citations of the
context (a Section citation can never textually equal an Article or
Chapter citation, so the per-type reading and the pooled reading of the
specification coincide). -/
def citationsCovered (response context : String) : Prop :=
  (∀ c ∈ findCitations "article".toList true response,
    ∃ d ∈ findCitations "article".toList true context, lowerL c.toList = lowerL d.toList) ∧
  (∀ c ∈ findCitations "section".toList true response,
    ∃ d ∈ findCitations "section".toList true context, lowerL c.toList = lowerL d.toList) ∧
  (∀ c ∈ findCitations "chapter".toList false response,
    ∃ d ∈ findCitations "chapter".toList false context, lowerL c.toList = lowerL d.toList)

/-! ### Documents, deduplication and reranking -/

/-- Langchain `Document`: page content plus a string-valued metadata map
(numeric metadata such as `confidence: 1.0` is stored in its printed
form, which no modelled code path inspects). -/
structure Document where
  page_content : String
  metadata : List (String × String)
deriving DecidableEq

/-- A retrieval candidate `(doc, score)`; for vector search the score is a
distance (lower is better), for reranked output a relevance in [0,1]
(higher is better). -/
abbrev Cand := Document × ℚ

/-- Helper for `deduplicate_results`, carrying the set of already seen
page contents (the code hashes the full `page_content`; hashing is
modelled as content equality). -/
def dedupAux : List Cand → List String → List Cand
  | [], _ => []
  | (d, s) :: rest, seen =>
    if seen.contains d.page_content then dedupAux rest seen
    else (d, s) :: dedupAux rest (d.page_content :: seen)

/-- Translation of `deduplicate_results` (retrieval.py:346): keep the
first candidate for each distinct page content. -/
def deduplicate_results (results : List Cand) : List Cand :=
  dedupAux results []

/-- Stable insertion: a new element goes after all elements it does not
beat, so equal keys keep their original order, matching Python's stable
`list.sort(key=..., reverse=True)`. -/
def insertByGe {α : Type} (ge : α → α → Bool) (x : α) : List α → List α
  | [] => [x]
  | y :: ys => if ge y x then y :: insertByGe ge x ys else x :: y :: ys

/-- Stable descending sort (insertion sort; any stable sort with the same
comparator, such as CPython's timsort, produces the same list). -/
def stableSortDesc {α : Type} (ge : α → α → Bool) (l : List α) : List α :=
  l.foldl (fun acc x => insertByGe ge x acc) []

/-- The FlashRank reranker abstracted: given the query and the passages
`(id, text)`, it either returns scored ids or raises. -/
structure Reranker where
  rr : String → List (Nat × String) → Except Unit (List (Nat × ℚ))

/-- Passages handed to FlashRank by `rerank_results`: the deduplicated
candidates, enumerated. -/
def passagesOf (results : List Cand) : List (Nat × String) :=
  (deduplicate_results results).enum.map (fun p => (p.1, p.2.1.page_content))

/-- Translation of `rerank_results` (retrieval.py:290). `none` for the
reranker models `get_reranker()` returning `None` (model load failure);
the `Except.error` branch models `reranker.rerank` raising. -/
def rerank_results (reranker : Option Reranker) (query : String)
    (results : List Cand) (top_k : Nat) : List Cand :=
  match reranker with
  | none => results.take top_k
  | some r =>
    if results.isEmpty then results.take top_k
    else
      let unique_docs := deduplicate_results results
      if unique_docs.isEmpty then []
      else
        match r.rr query (passagesOf results) with
        | Except.error _ => results.take top_k
        | Except.ok ranked =>
          let final := ranked.filterMap
            (fun item => (unique_docs.get? item.1).map (fun c => (c.1, item.2)))
          (stableSortDesc (fun a b => decide (a.2 ≥ b.2)) final).take top_k

/-! ### Progressive deepening (`retrieve_context`, retrieval.py:636-695) -/

/-- The `max_k` cap of the progressive deepening loop. -/
def max_k : Nat := 20

/-- The `max_depth_levels` bound of the progressive deepening loop. -/
def max_depth_levels : Nat := 3

/-- Python `min(score for _, score in results)` (callers guard against the
empty list; the value on `[]` is irrelevant). -/
def minScore : List Cand → ℚ
  | [] => 0
  | c :: cs => cs.foldl (fun m x => min m x.2) c.2

/-- Python `sum(1 for r in all_results if r[1] > 0.0002)`: the candidates
that are not injected summaries (0.0001) or exact matches (0.0); boosted
filtered-search results are clamped to at least 0.001 and so count. -/
def bigCount (pool : List Cand) : Nat :=
  (pool.filter (fun c => decide (c.2 > mkRat 1 5000))).length

/-- The `needs_deepening` test after the initial search round: an empty
pool always deepens; otherwise a filtered-only search that kept fewer
than 3 real chunks deepens, and else a best (minimum) distance above 3.0
deepens. -/
def needsDeepening (pool : List Cand) (skip : Bool) : Bool :=
  match pool with
  | [] => true
  | _ :: _ => (skip && decide (bigCount pool < 3)) || decide (minScore pool > 3)

/-- The `while needs_deepening and search_depth_level < max_depth_levels`
loop: each round doubles `current_k` (capped at `max_k`), re-queries every
shard, appends the results, and stops early on an empty round or on a
round whose best distance is below 2.5. `fuel` is the number of levels
still allowed (`max_depth_levels - search_depth_level`). Returns the
extended pool and the list of `k` values used by the extra rounds. -/
def deepenAux (search : Nat → List Cand) : Nat → Nat → List Cand → List Cand × List Nat
  | 0, _, pool => (pool, [])
  | fuel + 1, k, pool =>
    let k2 := min (k * 2) max_k
    let deeper := search k2
    let pool2 := pool ++ deeper
    if deeper.isEmpty then (pool2, [k2])
    else if minScore deeper < mkRat 5 2 then (pool2, [k2])
    else
      let r := deepenAux search fuel k2 pool2
      (r.1, k2 :: r.2)

/-- The progressive-deepening phase of `retrieve_context`: the level-1
fan-out (skipped when a core-document match restricted the search to
filtered-only), the `needs_deepening` test, and the deepening loop.
`search k` abstracts one concurrent fan-out round, merged over shards. -/
def deepeningPhase (search : Nat → List Cand) (injected : List Cand)
    (skip : Bool) (n : Nat) : List Cand × List Nat :=
  let pool1 := if skip then injected else injected ++ search n
  if needsDeepening pool1 skip then deepenAux search (max_depth_levels - 1) n pool1
  else (pool1, [])

/-! ### Exact-match injection and uploads index (`retrieve_context` strategies 0 and 0.5) -/

/-- An entry of `sections_index.json` (field `section` is renamed `sec`
because `section` is a Lean keyword). -/
structure SectionEntry where
  sec : String
  title : String
  act : String
  content : String
  keywords : List String
deriving DecidableEq

/-- The "Gold Standard" document synthesised by the exact-match path
(retrieval.py:563); the numeric metadata value `1.0` is stored in printed
form. -/
def mkExactDoc (e : SectionEntry) : Document :=
  { page_content :=
      "**OFFICIAL LEGAL RECORD**:\n**Act**: " ++ e.act ++ "\n**Section**: " ++ e.sec
        ++ "\n**Title**: " ++ e.title ++ "\n**Text**: " ++ e.content,
    metadata := [("source", "Simulated_Legal_Index"), ("type", "exact_match"),
                 ("section", e.sec), ("confidence", "1.0")] }

/-- Strategy 0 of `retrieve_context` (retrieval.py:541): for every index
entry and every one of its keywords occurring (lowercased, as a
substring) in the query, append the gold document with distance 0.0.
`none` models a missing or malformed `sections_index.json` (the try/except
silently skips the layer). -/
def strategy0 (idx : Option (List SectionEntry)) (query : String) : List Cand :=
  match idx with
  | none => []
  | some entries =>
    let q_lower := lowerL query.toList
    (entries.map (fun e =>
      (e.keywords.filter (fun kw => substrL (lowerL kw.toList) q_lower)).map
        (fun _ => ((mkExactDoc e, (0 : ℚ)) : Cand)))).flatten

/-- A record of `uploads_db.json`. -/
structure UploadDoc where
  filename : String
  summary : String
deriving DecidableEq

/-- The `CORE_DOC_MAPPING` dictionary (retrieval.py:30), in insertion
order. -/
def core_doc_mapping : List (String × String) :=
  [("BSA", "BSA"), ("BNS", "BNS"), ("BNSS", "BNSS"),
   ("IPC_BNS_MAPPING", "IPC_BNS_Mapping"), ("IEA", "IEA"), ("CRPC", "CrPC"),
   ("IPC", "IPC"), ("TC", "TC"), ("TCOI", "TCOI")]

/-- Translation of `search_uploads_index` (retrieval.py:42): score each
upload by core-acronym match (+100, once) plus per-term filename (+3) and
summary (+1) hits for query terms of length at least 3, keep positive
scores, sort stably by score descending, return the top five. -/
def search_uploads_index (query : String) (db : List UploadDoc) : List UploadDoc :=
  let query_upper := upperL query.toList
  let query_terms := wordsL (lowerL query.toList)
  let targets := core_doc_mapping.filterMap
    (fun p => if wordBounded p.1.toList query_upper then some (lowerL p.2.toList) else none)
  let scored : List (UploadDoc × Nat) := db.filterMap (fun d =>
    let fname := lowerL d.filename.toList
    let summ := lowerL d.summary.toList
    let coreScore : Nat := if targets.any (fun t => substrL t fname) then 100 else 0
    let termScore : Nat := query_terms.foldl (fun acc term =>
      if term.length < 3 then acc
      else acc + (if substrL term fname then 3 else 0) + (if substrL term summ then 1 else 0)) 0
    let score := coreScore + termScore
    if score > 0 then some (d, score) else none)
  ((stableSortDesc (fun a b => decide (a.2 ≥ b.2)) scored).map (fun p => p.1)).take 5

/-- The summary document injected for a matched upload (retrieval.py:603). -/
def mkSummaryDoc (d : UploadDoc) : Document :=
  { page_content := "**DOCUMENT SUMMARY for " ++ d.filename ++ "**:\n" ++ d.summary,
    metadata := [("source", d.filename), ("type", "summary"), ("filename", d.filename)] }

/-- One shard of the vector store, abstracted: `search` is
`similarity_search_with_score(query, k)` and `searchFiltered` is the same
call with a filename filter (a shard raising is modelled by returning
`[]`, which is what the per-shard try/except produces). -/
structure VectorDB where
  search : String → Nat → List Cand
  searchFiltered : String → Nat → List String → List Cand

/-- Strategy 0.5 of `retrieve_context` (retrieval.py:573): match uploads,
set `skip_general_search` when a core acronym occurs in a matched
filename, inject the summaries at score 0.0001, and run a filtered
per-shard search at k=10 whose scores are boosted by `max(s - 0.5, 0.001)`.
Returns the injected candidates, the skip flag, and the number of
`similarity_search_with_score` calls issued. -/
def strategy05 (query : String) (uploadsDb : List UploadDoc) (dbs : List VectorDB) :
    List Cand × Bool × Nat :=
  let matched := search_uploads_index query uploadsDb
  if matched.isEmpty then ([], false, 0)
  else
    let skip := matched.any (fun d =>
      core_doc_mapping.any (fun p => substrL p.1.toList (upperL d.filename.toList)))
    let target_filenames := (matched.map (fun d => d.filename)).filter (fun f => f ≠ "")
    let summaries := matched.filterMap (fun d =>
      if d.summary ≠ "" then some ((mkSummaryDoc d, mkRat 1 10000) : Cand) else none)
    let filtered :=
      if target_filenames.isEmpty then []
      else (dbs.map (fun db =>
        (db.searchFiltered query 10 target_filenames).map
          (fun c => ((c.1, max (c.2 - mkRat 1 2) (mkRat 1 1000)) : Cand)))).flatten
    (summaries ++ filtered, skip, if target_filenames.isEmpty then 0 else dbs.length)

/-! ### The full retrieval pipeline (`retrieve_context`, retrieval.py:504) -/

/-- The external collaborators of `retrieve_context`: the section index
file, the uploads database, the shard list, the optional reranker, and
the query expander (`generate_query_expansions` never raises: its LLM
failure path falls back to heuristics, so it is one total function). -/
structure RetrievalEnv where
  sectionsIndex : Option (List SectionEntry)
  uploadsDb : List UploadDoc
  dbs : List VectorDB
  reranker : Option Reranker
  expand : String → QueryComplexity → List String

/-- Instrumented result of `retrieve_context`: the returned top results,
the deduplicated candidate pool that was fed to the reranker, the total
number of `similarity_search_with_score` calls issued, and the `k` values
used by the extra deepening rounds. -/
structure RetrieveTrace where
  final : List Cand
  pool : List Cand
  simCalls : Nat
  deepeningKs : List Nat
deriving DecidableEq

/-- The separator used to join chunk texts into the context string. -/
def joinContext (texts : List String) : String :=
  String.intercalate "\n\n---\n\n" texts

/-- Python `" ".join(words)` over char-list words. -/
def joinSpaces (ws : List (List Char)) : String :=
  String.intercalate " " (ws.map (fun w => (⟨w⟩ : String)))

/-- Translation of `retrieve_context` (retrieval.py:504), instrumented
with the pre-rerank pool and the vector-search call count. Shard fan-outs
are merged in shard order (completion order is nondeterministic in the
code; every property proved below is insensitive to the merge order).
The Python `missing_keywords` set is iterated in extraction order. -/
def retrieve_context (env : RetrievalEnv) (query_text : String) (n_results : Nat)
    (persona : String) (qcOpt : Option QueryComplexity) : RetrieveTrace :=
  let qc := qcOpt.getD (analyze_query_complexity query_text)
  let s0 := strategy0 env.sectionsIndex query_text
  let s05 := strategy05 query_text env.uploadsDb env.dbs
  let skip := s05.2.1
  let callsFiltered := s05.2.2
  let injected := s0 ++ s05.1
  let searchFn := fun k => (env.dbs.map (fun db => db.search query_text k)).flatten
  let dp := deepeningPhase searchFn injected skip n_results
  let ks := dp.2
  let callsGeneral := (if skip then 0 else env.dbs.length) + ks.length * env.dbs.length
  let current_k := ks.getLastD n_results
  let expandCond := qc.qtype = "complex" || qc.qtype = "comparative" || persona ≠ "kira"
  let expansions := if expandCond then env.expand query_text qc else []
  let expResults := (expansions.map
    (fun eq => (env.dbs.map (fun db => db.search eq (min current_k 5))).flatten)).flatten
  let callsBase := callsFiltered + callsGeneral + expansions.length * env.dbs.length
  let pool := deduplicate_results (dp.1 ++ expResults)
  let top5 := rerank_results env.reranker query_text pool 5
  let finish : List Cand × Nat :=
    if top5.isEmpty then ([], 0)
    else
      let context := joinContext (top5.map (fun c => c.1.page_content))
      let rel := check_context_relevance query_text context qc
      if adaptiveTrigger rel then
        let adaptive_queries :=
          ((rel.missing_keywords.take 3).map
            (fun kw => [kw ++ " " ++ query_text, kw])).flatten
          ++ (let terms := wordsL query_text.toList
              if terms.length > 3 then
                [joinSpaces (terms.take 3), joinSpaces (terms.drop (terms.length - 3))]
              else [])
        let adaptive_results := (adaptive_queries.map
          (fun aq => (env.dbs.map (fun db => db.search aq 5)).flatten)).flatten
        let callsA := adaptive_queries.length * env.dbs.length
        if adaptive_results.isEmpty then (top5, callsA)
        else
          let pool2 := deduplicate_results (pool ++ adaptive_results)
          (rerank_results env.reranker query_text pool2 7, callsA)
      else (top5, 0)
  ⟨finish.1, pool, callsBase + finish.2, ks⟩

/-! ### Response caches (`core.py` and `cache_service.py`) -/

/-- The module-level `_response_cache` dict of core.py: query text mapping
to `(answer, sources)`. -/
abbrev ResponseCache := List (String × (String × List String))

/-- Translation of `update_cache` (core.py:217): dictionary assignment. -/
def update_cache (cache : ResponseCache) (query answer : String)
    (sources : List String) : ResponseCache :=
  (query, (answer, sources)) :: cache.filter (fun p => p.1 ≠ query)

/-- Translation of `get_cache_entry` (core.py:213): a plain dictionary
lookup, `_response_cache.get(query)`. -/
def get_cache_entry (cache : ResponseCache) (query : String) :
    Option (String × List String) :=
  (cache.find? (fun p => p.1 = query)).map (fun p => p.2)

/-- Passage of wall-clock time leaves the in-memory cache of core.py
unchanged: `update_cache` stores no timestamp, `get_cache_entry` consults
no clock, and no background task evicts entries — only `update_cache` and
`clear_cache` ever mutate the dictionary. -/
def elapse_time (cache : ResponseCache) (_seconds : Int) : ResponseCache := cache

/-- A Redis value together with its absolute expiry time (`none` for a
plain `SET` without expiry). -/
structure RedisEntry where
  value : String
  expiresAt : Option Int
deriving DecidableEq

/-- The Redis keyspace as seen by `cache_service.py`. -/
abbrev RedisStore := List (String × RedisEntry)

/-- Redis `SETEX key ttl value` at wall-clock time `now`: the key expires
at `now + ttl`. -/
def redis_setex (store : RedisStore) (now : Int) (key : String) (ttl : Int)
    (value : String) : RedisStore :=
  (key, ⟨value, some (now + ttl)⟩) :: store.filter (fun p => p.1 ≠ key)

/-- Redis `GET key` at wall-clock time `now`: an entry whose expiry time
has passed behaves exactly like an absent key. -/
def redis_get (store : RedisStore) (now : Int) (key : String) : Option String :=
  match store.find? (fun p => p.1 = key) with
  | none => none
  | some p =>
    match p.2.expiresAt with
    | none => some p.2.value
    | some t => if now < t then some p.2.value else none

/-- The fingerprint of `CacheService._hash_query`: md5 of
`f"{query}:{sorted(collections) if collections else 'all'}"`. The md5 is
modelled as the fingerprint string itself (md5 collisions are outside the
model). -/
def hash_query (query : String) (collections : List String) : String :=
  query ++ ":" ++
    (if collections.isEmpty then "all"
     else String.intercalate "," (collections.mergeSort (fun a b => a ≤ b)))

/-- Translation of `CacheService.set_response` (cache_service.py:112):
`SETEX` under the `resp:` key prefix, skipped when Redis is unavailable. -/
def set_response (enabled : Bool) (store : RedisStore) (now : Int)
    (query : String) (collections : List String) (response : String)
    (ttl : Int) : RedisStore :=
  if enabled then redis_setex store now ("resp:" ++ hash_query query collections) ttl response
  else store

/-- Translation of `CacheService.get_response` (cache_service.py:98):
`GET` under the `resp:` key prefix, a miss when Redis is unavailable. -/
def get_response (enabled : Bool) (store : RedisStore) (now : Int)
    (query : String) (collections : List String) : Option String :=
  if enabled then redis_get store now ("resp:" ++ hash_query query collections)
  else none

/-! ### Concrete instances used by witnesses and counterexamples -/

/-- A section-index entry registered under keyword `"302"` (spec,
end-to-end scenario A). -/
def e302 : SectionEntry :=
  ⟨"Section 302", "Murder", "IPC", "Punishment for murder.", ["302"]⟩

/-- The gold document the exact-match path synthesises for `e302`. -/
def goldDoc : Document := mkExactDoc e302

/-- An ordinary vector-store chunk competing with the gold document. -/
def docCommentary : Document := ⟨"General commentary on criminal law.", []⟩

/-- A single shard that returns the commentary chunk at distance 0.5 for
every query. -/
def dbOne : VectorDB := ⟨fun _ _ => [(docCommentary, mkRat 1 2)], fun _ _ _ => []⟩

/-- A single shard that returns nothing. -/
def dbEmpty : VectorDB := ⟨fun _ _ => [], fun _ _ _ => []⟩

/-- A reranker whose cross-encoder scores the commentary chunk (passage id
1) above the injected gold document (passage id 0) — nothing in the code
constrains the cross-encoder, so this is a legitimate model of FlashRank. -/
def rrPrefersCommentary : Reranker :=
  ⟨fun _ _ => Except.ok [(0, mkRat 1 10), (1, mkRat 9 10)]⟩

/-- A reranker that always raises. -/
def rrRaises : Reranker := ⟨fun _ _ => Except.error ()⟩

/-- A fixed complexity record, as `query_docs` would pass one in. -/
def qcSimple : QueryComplexity := ⟨"simple", mkRat 9 10, [], 4⟩

/-- Environment for the exact-match scenarios: the section index holds
`e302`, one shard returns the commentary chunk, and the reranker prefers
the commentary chunk. -/
def envC2 : RetrievalEnv :=
  ⟨some [e302], [], [dbOne], some rrPrefersCommentary, fun _ _ => []⟩

/-- Environment for scenario A: the section index holds `e302`, the only
shard is empty, the reranker is unavailable. -/
def envC3 : RetrievalEnv :=
  ⟨some [e302], [], [dbEmpty], none, fun _ _ => []⟩

/-- A deepening oracle: the fan-out is empty at the initial k and finds a
close chunk (distance 2) at k = 20. -/
def sDeepen : Nat → List Cand :=
  fun k => if k = 20 then [(⟨"deep chunk", []⟩, 2)] else []

/-! ### Theorems -/

/-- Unfolding lemma for one deepening round. -/
theorem deepenAux_succ (s : Nat → List Cand) (fuel k : Nat) (pool : List Cand) :
    deepenAux s (fuel + 1) k pool =
      (if (s (min (k * 2) max_k)).isEmpty then (pool ++ s (min (k * 2) max_k), [min (k * 2) max_k])
       else if minScore (s (min (k * 2) max_k)) < mkRat 5 2 then
         (pool ++ s (min (k * 2) max_k), [min (k * 2) max_k])
       else ((deepenAux s fuel (min (k * 2) max_k) (pool ++ s (min (k * 2) max_k))).1,
             min (k * 2) max_k :: (deepenAux s fuel (min (k * 2) max_k) (pool ++ s (min (k * 2) max_k))).2)) :=
  rfl

/-- A single remaining level always performs exactly one more round. -/
theorem deepenAux_one_ks (s : Nat → List Cand) (k : Nat) (pool : List Cand) :
    (deepenAux s 1 k pool).2 = [min (k * 2) max_k] := by
  rw [deepenAux_succ]
  split
  · rfl
  · split <;> rfl

/-- The `needs_deepening` flag, as a proposition. -/
theorem needsDeepening_iff (pool : List Cand) (skip : Bool) :
    needsDeepening pool skip = true ↔
      (pool = [] ∨ minScore pool > 3 ∨ (skip = true ∧ bigCount pool < 3)) := by
  cases pool with
  | nil => simp [needsDeepening]
  | cons c cs =>
    simp only [needsDeepening, Bool.or_eq_true, Bool.and_eq_true, decide_eq_true_eq]
    constructor
    · rintro (⟨h1, h2⟩ | h)
      · exact Or.inr (Or.inr ⟨h1, h2⟩)
      · exact Or.inr (Or.inl h)
    · rintro (h | h | h)
      · exact absurd h (List.cons_ne_nil c cs)
      · exact Or.inr h
      · exact Or.inl h

/-- Both deepening rounds, unfolded: the second round happens exactly when
the first is nonempty with best distance at least 2.5. -/
theorem deepenAux_two_ks (s : Nat → List Cand) (k : Nat) (pool : List Cand) :
    (deepenAux s 2 k pool).2 =
      if (s (min (k * 2) max_k)).isEmpty then [min (k * 2) max_k]
      else if minScore (s (min (k * 2) max_k)) < mkRat 5 2 then [min (k * 2) max_k]
      else [min (k * 2) max_k, min (min (k * 2) max_k * 2) max_k] := by
  show (deepenAux s (1 + 1) k pool).2 = _
  rw [deepenAux_succ]
  split
  · simp
  · split
    · simp
    · simp [deepenAux_one_ks]

/-- C1 (confirmed): progressive deepening in `retrieve_context`. After the
primary fan-out, an extra round happens exactly when the pool is empty, or
its best (minimum) distance exceeds 3.0, or — in the filtered-only case
`skip_general_search` — fewer than 3 results with score above 0.0002
survive (precisely the non-injected candidates there, since injected exact
matches score 0.0, injected summaries 0.0001, and boosted filtered results
at least 0.001). At most 2 extra rounds run, each with k doubled and
capped at 20, and the loop stops early as soon as a round's best distance
is below 2.5. -/
theorem C1_progressive_deepening (search : Nat → List Cand) (injected : List Cand)
    (skip : Bool) (n : Nat) :
    ((deepeningPhase search injected skip n).2 ≠ [] ↔
      ((if skip then injected else injected ++ search n) = [] ∨
        minScore (if skip then injected else injected ++ search n) > 3 ∨
        (skip = true ∧ bigCount (if skip then injected else injected ++ search n) < 3))) ∧
    (deepeningPhase search injected skip n).2.length ≤ 2 ∧
    ((deepeningPhase search injected skip n).2 = [] ∨
      (deepeningPhase search injected skip n).2 = [min (n * 2) 20] ∨
      (deepeningPhase search injected skip n).2 =
        [min (n * 2) 20, min (min (n * 2) 20 * 2) 20]) ∧
    (search (min (n * 2) 20) ≠ [] → minScore (search (min (n * 2) 20)) < mkRat 5 2 →
      (deepeningPhase search injected skip n).2 ≠
        [min (n * 2) 20, min (min (n * 2) 20 * 2) 20]) := by
  have hphase : deepeningPhase search injected skip n =
      if needsDeepening (if skip then injected else injected ++ search n) skip
      then deepenAux search 2 n (if skip then injected else injected ++ search n)
      else ((if skip then injected else injected ++ search n), []) := rfl
  set p1 := if skip then injected else injected ++ search n with hp1
  by_cases hneed : needsDeepening p1 skip = true
  · have htrig := (needsDeepening_iff p1 skip).mp hneed
    have h2 : (deepeningPhase search injected skip n).2 = (deepenAux search 2 n p1).2 := by
      rw [hphase, if_pos hneed]
    rw [deepenAux_two_ks] at h2
    simp only [max_k] at h2
    by_cases he : (search (min (n * 2) 20)).isEmpty
    · rw [if_pos he] at h2
      refine ⟨?_, ?_, ?_, ?_⟩
      · rw [h2]; simpa using htrig
      · rw [h2]; simp
      · rw [h2]; exact Or.inr (Or.inl rfl)
      · intro hne _; rw [h2]; simp
    · by_cases hlt : minScore (search (min (n * 2) 20)) < mkRat 5 2
      · rw [if_neg he, if_pos hlt] at h2
        refine ⟨?_, ?_, ?_, ?_⟩
        · rw [h2]; simpa using htrig
        · rw [h2]; simp
        · rw [h2]; exact Or.inr (Or.inl rfl)
        · intro hne _; rw [h2]; simp
      · rw [if_neg he, if_neg hlt] at h2
        refine ⟨?_, ?_, ?_, ?_⟩
        · rw [h2]; simpa using htrig
        · rw [h2]; simp
        · rw [h2]; exact Or.inr (Or.inr rfl)
        · intro hne hlt2; exact absurd hlt2 hlt
  · have h2 : (deepeningPhase search injected skip n).2 = [] := by
      rw [hphase, if_neg hneed]
    refine ⟨?_, ?_, ?_, ?_⟩
    · rw [h2]
      constructor
      · intro h; exact absurd rfl h
      · intro ht; exact absurd ((needsDeepening_iff p1 skip).mpr ht) hneed
    · rw [h2]; simp
    · exact Or.inl h2
    · intro _ _; rw [h2]; simp

/-- Witness for C1: with one empty shard round at the initial k and a
close chunk at k = 20, exactly one extra round runs, at k = 20. -/
theorem C1_progressive_deepening_witness :
    (deepeningPhase sDeepen [] false 50).2 = [20] := by
  have h := C1_progressive_deepening sDeepen [] false 50
  have hne : (deepeningPhase sDeepen [] false 50).2 ≠ [] :=
    h.1.mpr (Or.inl (by decide))
  have hnot2 := h.2.2.2 (by decide) (by decide)
  rcases h.2.2.1 with hc | hc | hc
  · exact absurd hc hne
  · simpa using hc
  · exact absurd hc (by simpa using hnot2)

/-- C5 (confirmed): `analyze_query_complexity` implements the five-step
rule cascade of the specification exactly — its type and confidence agree
with the spec-side cascade `classifySpec` on every query. Determinism is
immediate: the classifier is modelled as (and in Python is) a pure
function of the query text, with no other input. The Python code computes
confidences in floating point; the cascade is stated here in exact
rational arithmetic. -/
theorem C5_classifier_cascade (query : String) :
    ((analyze_query_complexity query).qtype, (analyze_query_complexity query).confidence) =
      classifySpec query := by
  unfold analyze_query_complexity classifySpec
  simp only [Bool.or_eq_true, decide_eq_true_eq, Bool.and_eq_true]

/-- C8 (confirmed): `determine_chunk_count` always returns between 3 and
10, and with confidence and category filter held equal a comparative
complexity never requests fewer chunks than a simple one. -/
theorem C8_chunk_count_bounds_monotone :
    (∀ (qc : QueryComplexity) (tag : Option String),
        3 ≤ determine_chunk_count qc tag ∧ determine_chunk_count qc tag ≤ 10) ∧
    (∀ (conf : ℚ) (kws1 kws2 : List String) (wc1 wc2 : Nat) (tag : Option String),
        determine_chunk_count ⟨"simple", conf, kws1, wc1⟩ tag ≤
          determine_chunk_count ⟨"comparative", conf, kws2, wc2⟩ tag) := by
  constructor
  · intro qc tag
    unfold determine_chunk_count
    simp only [Nat.min_def, Nat.max_def]
    split_ifs <;> omega
  · intro conf kws1 kws2 wc1 wc2 tag
    unfold determine_chunk_count
    by_cases hconf : conf > mkRat 8 10 <;> by_cases htag : truthyTag tag = true <;>
      simp [hconf, htag]

/-- Every coverage threshold is at most 1. -/
theorem min_coverage_le_one (t : String) : min_coverage t ≤ 1 := by
  unfold min_coverage
  split_ifs <;> rw [Rat.mkRat_eq_div] <;> norm_num

/-- Every coverage threshold is strictly positive (including the 0.5
default used for unknown types). -/
theorem min_coverage_pos (t : String) : 0 < min_coverage t := by
  unfold min_coverage
  split_ifs <;> rw [Rat.mkRat_eq_div] <;> norm_num

/-- Shape of `check_context_relevance` when the keyword set is nonempty. -/
theorem check_context_relevance_nonempty (query context : String)
    (qc : QueryComplexity) (hne : queryKeywords query ≠ []) :
    check_context_relevance query context qc =
      ⟨decide (mkRat ((queryKeywords query).filter
            (fun k => substrL k.toList (lowerL context.toList))).length
          (queryKeywords query).length ≥ min_coverage qc.qtype),
        mkRat ((queryKeywords query).filter
            (fun k => substrL k.toList (lowerL context.toList))).length
          (queryKeywords query).length,
        (queryKeywords query).filter
          (fun k => !(substrL k.toList (lowerL context.toList)))⟩ := by
  unfold check_context_relevance
  rw [if_neg (by simpa [List.isEmpty_iff] using hne)]

/-- C7 (confirmed): with a nonempty extracted keyword set, a context
containing every keyword is judged relevant for every complexity type,
and a context containing none is judged not relevant for every type —
each type's required coverage (simple 0.7, complex 0.5, comparative 0.4,
procedural 0.6, default 0.5) lies strictly between 0 and 1. -/
theorem C7_relevance_coverage (query context : String) (qc : QueryComplexity)
    (hne : queryKeywords query ≠ []) :
    ((∀ kw ∈ queryKeywords query, substrL kw.toList (lowerL context.toList) = true) →
      (check_context_relevance query context qc).is_relevant = true) ∧
    ((∀ kw ∈ queryKeywords query, substrL kw.toList (lowerL context.toList) = false) →
      (check_context_relevance query context qc).is_relevant = false) := by
  have hlen : ((queryKeywords query).length : ℚ) ≠ 0 := by
    have : queryKeywords query ≠ [] := hne
    simpa [List.length_eq_zero] using this
  constructor
  · intro hall
    rw [check_context_relevance_nonempty query context qc hne]
    have hfound : (queryKeywords query).filter
        (fun k => substrL k.toList (lowerL context.toList)) = queryKeywords query :=
      List.filter_eq_self.mpr hall
    show decide _ = true
    rw [hfound]
    refine decide_eq_true ?_
    have hone : (mkRat ((queryKeywords query).length) ((queryKeywords query).length) : ℚ) = 1 := by
      rw [Rat.mkRat_eq_div]
      push_cast
      exact div_self hlen
    rw [hone]
    exact min_coverage_le_one qc.qtype
  · intro hnone
    rw [check_context_relevance_nonempty query context qc hne]
    have hfound : (queryKeywords query).filter
        (fun k => substrL k.toList (lowerL context.toList)) = [] := by
      refine List.filter_eq_nil_iff.mpr ?_
      intro a ha
      simpa using hnone a ha
    show decide _ = false
    rw [hfound]
    refine decide_eq_false ?_
    have hzero : (mkRat ((List.length ([] : List String))) ((queryKeywords query).length) : ℚ) = 0 := by
      rw [Rat.mkRat_eq_div]
      simp
    rw [hzero]
    exact not_le.mpr (min_coverage_pos qc.qtype)

/-- Witness for C7: the query `"murder under section 302"` extracts the
keywords `section 302`, `murder`, `section`; a context containing all of
them is relevant, one containing none is not. -/
theorem C7_relevance_coverage_witness :
    (check_context_relevance "murder under section 302"
      "Murder is covered by Section 302 of the code." qcSimple).is_relevant = true ∧
    (check_context_relevance "murder under section 302"
      "theft provisions" qcSimple).is_relevant = false :=
  ⟨(C7_relevance_coverage "murder under section 302"
      "Murder is covered by Section 302 of the code." qcSimple (by decide)).1 (by decide),
   (C7_relevance_coverage "murder under section 302"
      "theft provisions" qcSimple (by decide)).2 (by decide)⟩

/-- C10 (confirmed): when keyword extraction comes back empty — no legal
pattern matches and no content word of length at least 4 outside the
stopword list — `check_context_relevance` returns relevant with
confidence 0.5 and no missing keywords, so the adaptive deep-search
round of `retrieve_context` can never fire for such a query. -/
theorem C10_empty_keywords_relevant (query context : String) (qc : QueryComplexity)
    (h : queryKeywords query = []) :
    check_context_relevance query context qc = ⟨true, mkRat 1 2, []⟩ ∧
    adaptiveTrigger (check_context_relevance query context qc) = false := by
  have hchk : check_context_relevance query context qc = ⟨true, mkRat 1 2, []⟩ := by
    unfold check_context_relevance
    rw [h]
    rfl
  exact ⟨hchk, by rw [hchk]; rfl⟩

/-- Witness for C10: `"who am i?"` has no legal pattern and no content
word of length at least 4, so its keyword set is empty. -/
theorem C10_empty_keywords_relevant_witness :
    check_context_relevance "who am i?" "anything at all" qcSimple =
      ⟨true, mkRat 1 2, []⟩ :=
  (C10_empty_keywords_relevant "who am i?" "anything at all" qcSimple (by decide)).1

/-- The case-insensitive membership test, as a proposition. -/
theorem lowerEqMem_iff (c : String) (ctx : List String) :
    lowerEqMem c ctx = true ↔ ∃ d ∈ ctx, lowerL c.toList = lowerL d.toList := by
  unfold lowerEqMem
  rw [List.any_eq_true]
  simp

/-- C9 (confirmed): `verify_legal_citations` returns `valid = true` with
no violations exactly when every Article/Section/Chapter citation of the
answer also occurs, case-insensitively, among the citations extracted
from the context (per pattern type; a citation string of one type can
never equal one of another, as each starts with its own keyword); in
particular an answer without any citation pattern always verifies
cleanly, whatever the context. -/
theorem C9_citation_verifier (response context : String) :
    (((verify_legal_citations response context).valid = true ∧
        (verify_legal_citations response context).violations = []) ↔
      citationsCovered response context) ∧
    (findCitations "article".toList true response = [] →
      findCitations "section".toList true response = [] →
      findCitations "chapter".toList false response = [] →
      (verify_legal_citations response context).valid = true ∧
      (verify_legal_citations response context).violations = []) := by
  constructor
  · unfold verify_legal_citations citationsCovered
    simp only [List.isEmpty_iff, List.append_eq_nil, List.map_eq_nil_iff,
      List.filter_eq_nil_iff, Bool.not_eq_true', Bool.not_eq_false,
      lowerEqMem_iff, and_self_iff]
    tauto
  · intro h1 h2 h3
    unfold verify_legal_citations
    rw [h1, h2, h3]
    exact ⟨rfl, rfl⟩

/-- Witness for C9: an answer with no citation patterns verifies against
an arbitrary context that itself contains citations. -/
theorem C9_citation_verifier_witness :
    (verify_legal_citations "no citations in this answer"
        "context citing Section 420 and Article 21").valid = true ∧
    (verify_legal_citations "no citations in this answer"
        "context citing Section 420 and Article 21").violations = [] :=
  (C9_citation_verifier "no citations in this answer"
      "context citing Section 420 and Article 21").2 (by decide) (by decide) (by decide)

/-- Deduplication keeps the head of a nonempty list first. -/
theorem deduplicate_results_cons (d : Document) (s : ℚ) (l : List Cand) :
    deduplicate_results ((d, s) :: l) = (d, s) :: dedupAux l [d.page_content] := rfl

/-- C6 (confirmed): `rerank_results` never raises — when the reranker is
unavailable, or when its `rerank` call throws, it returns the first
`top_k` input candidates unchanged in their pre-rerank order; and in
every case (success included) the output has at most `top_k` entries. -/
theorem C6_rerank_fallback (query : String) (results : List Cand) (top_k : Nat) :
    rerank_results none query results top_k = results.take top_k ∧
    (∀ r : Reranker, r.rr query (passagesOf results) = Except.error () →
      rerank_results (some r) query results top_k = results.take top_k) ∧
    (∀ rk : Option Reranker, (rerank_results rk query results top_k).length ≤ top_k) := by
  refine ⟨rfl, ?_, ?_⟩
  · intro r herr
    cases results with
    | nil => rfl
    | cons a as =>
      obtain ⟨d, s⟩ := a
      simp only [rerank_results]
      rw [if_neg (by simp)]
      rw [if_neg (by rw [deduplicate_results_cons]; simp)]
      rw [herr]
  · intro rk
    cases rk with
    | none => exact (List.length_take _ _).le.trans (Nat.min_le_left _ _)
    | some r =>
      simp only [rerank_results]
      split
      · exact (List.length_take _ _).le.trans (Nat.min_le_left _ _)
      · split
        · simp
        · split
          · exact (List.length_take _ _).le.trans (Nat.min_le_left _ _)
          · exact (List.length_take _ _).le.trans (Nat.min_le_left _ _)

/-- Witness for C6: on a one-candidate list, both the
reranker-unavailable path and the reranker-raises path return the
candidate unchanged. -/
theorem C6_rerank_fallback_witness :
    rerank_results none "q" [(docCommentary, (1 : ℚ))] 5 = [(docCommentary, (1 : ℚ))] ∧
    rerank_results (some rrRaises) "q" [(docCommentary, (1 : ℚ))] 5 =
      [(docCommentary, (1 : ℚ))] :=
  ⟨((C6_rerank_fallback "q" [(docCommentary, (1 : ℚ))] 5).1).trans (by decide),
   ((C6_rerank_fallback "q" [(docCommentary, (1 : ℚ))] 5).2.1 rrRaises rfl).trans (by decide)⟩

/-- C4 counterexample: the in-memory response cache of core.py has no
time-to-live at all. An entry stored by `update_cache` is still returned
by `get_cache_entry` after 3601 seconds — one second past the 1-hour TTL
the specification quotes — and indeed after any delay, because the cache
keeps no timestamps and nothing ever expires entries. The lookup is not
a miss. -/
theorem C4_no_ttl_counterexample :
    get_cache_entry (elapse_time (update_cache [] "q" "cached answer" []) 3601) "q" =
      some ("cached answer", []) := by decide

/-- C4 (corrected): TTL expiry exists only in the Redis-backed
`CacheService` response cache — `set_response` stores with `SETEX`, and a
`get_response` at or after the expiry instant misses — while core.py's
`get_cache_entry` is a plain dictionary lookup on which elapsed time has
no effect whatsoever. -/
theorem C4_ttl_only_in_redis_cache (enabled : Bool) (store : RedisStore)
    (t0 t1 ttl : Int) (query response : String) (collections : List String)
    (h : t0 + ttl ≤ t1) :
    get_response enabled (set_response true store t0 query collections response ttl)
      t1 query collections = none ∧
    (∀ (cache : ResponseCache) (t : Int) (q : String),
      get_cache_entry (elapse_time cache t) q = get_cache_entry cache q) := by
  constructor
  · cases enabled with
    | false => rfl
    | true =>
      unfold get_response set_response redis_setex redis_get
      rw [if_pos rfl, if_pos rfl]
      rw [List.find?_cons_of_pos _ (by simp)]
      simp only
      rw [if_neg (not_lt.mpr h)]
  · intro cache t q
    rfl

/-- Witness for C4's corrected statement: a response cached at time 0
with a 3600-second TTL misses at time 3600. -/
theorem C4_ttl_only_in_redis_cache_witness :
    ((0 : Int) + 3600 ≤ 3600) ∧
    get_response true (set_response true [] 0 "q" [] "resp" 3600) 3600 "q" [] = none :=
  ⟨by decide,
   (C4_ttl_only_in_redis_cache true [] 0 3600 3600 "q" "resp" [] (by decide)).1⟩

/-- A suffix is a substring. -/
theorem substrL_append_left (needle p : List Char) :
    substrL needle (p ++ needle) = true := by
  induction p with
  | nil =>
    cases needle with
    | nil => rfl
    | cons c t =>
      show ((c :: t).isPrefixOf (c :: t) || substrL (c :: t) t) = true
      simp [List.isPrefixOf_iff_prefix]
  | cons c p ih =>
    cases needle with
    | nil => rfl
    | cons d t =>
      show ((d :: t).isPrefixOf (c :: (p ++ d :: t)) || substrL (d :: t) (p ++ d :: t)) = true
      rw [ih]
      simp

/-- The gold document's text includes the indexed section's content. -/
theorem mkExactDoc_content_substr (e : SectionEntry) :
    substrL e.content.toList (mkExactDoc e).page_content.toList = true := by
  show substrL e.content.toList
    (("**OFFICIAL LEGAL RECORD**:\n**Act**: " ++ e.act ++ "\n**Section**: " ++ e.sec
      ++ "\n**Title**: " ++ e.title ++ "\n**Text**: ") ++ e.content).toList = true
  show substrL e.content.data (String.data _) = true
  rw [String.data_append]
  exact substrL_append_left e.content.data _

/-- A matching entry and keyword put the gold document, at distance 0,
into the strategy-0 injection. -/
theorem mem_strategy0 (idx : List SectionEntry) (e : SectionEntry) (kw : String)
    (query : String) (he : e ∈ idx) (hkw : kw ∈ e.keywords)
    (hmatch : substrL (lowerL kw.toList) (lowerL query.toList) = true) :
    (mkExactDoc e, (0 : ℚ)) ∈ strategy0 (some idx) query := by
  unfold strategy0
  rw [List.mem_flatten]
  refine ⟨(e.keywords.filter
      (fun k => substrL (lowerL k.toList) (lowerL query.toList))).map
      (fun _ => ((mkExactDoc e, (0 : ℚ)) : Cand)), ?_, ?_⟩
  · exact List.mem_map_of_mem _ he
  · exact List.mem_map_of_mem _ (List.mem_filter.mpr ⟨hkw, hmatch⟩)

/-- Every strategy-0 candidate is a gold document at distance 0. -/
theorem strategy0_shape (idx : Option (List SectionEntry)) (query : String) :
    ∀ p ∈ strategy0 idx query, p.2 = 0 ∧ ∃ e, p.1 = mkExactDoc e := by
  intro p hp
  cases idx with
  | none => simp [strategy0] at hp
  | some entries =>
    unfold strategy0 at hp
    rw [List.mem_flatten] at hp
    obtain ⟨l, hl, hpl⟩ := hp
    rw [List.mem_map] at hl
    obtain ⟨e, _, rfl⟩ := hl
    rw [List.mem_map] at hpl
    obtain ⟨k, _, rfl⟩ := hpl
    exact ⟨rfl, e, rfl⟩

/-- An uploads-index miss disables strategy 0.5 entirely: nothing is
injected, the general search is not skipped, no filtered search runs. -/
theorem strategy05_of_no_match (query : String) (uploadsDb : List UploadDoc)
    (dbs : List VectorDB) (h : search_uploads_index query uploadsDb = []) :
    strategy05 query uploadsDb dbs = ([], false, 0) := by
  unfold strategy05
  rw [h]
  rfl

/-- The deepening rounds only ever append to the pool. -/
theorem deepenAux_pool_prefix (s : Nat → List Cand) :
    ∀ (fuel k : Nat) (pool : List Cand),
      ∃ extra, (deepenAux s fuel k pool).1 = pool ++ extra := by
  intro fuel
  induction fuel with
  | zero => exact fun k pool => ⟨[], by simp [deepenAux]⟩
  | succ m ih =>
    intro k pool
    rw [deepenAux_succ]
    split
    · exact ⟨s (min (k * 2) max_k), rfl⟩
    · split
      · exact ⟨s (min (k * 2) max_k), rfl⟩
      · obtain ⟨ex, hex⟩ := ih (min (k * 2) max_k) (pool ++ s (min (k * 2) max_k))
        exact ⟨s (min (k * 2) max_k) ++ ex, by rw [hex, List.append_assoc]⟩

/-- The whole deepening phase only ever appends to the injected pool. -/
theorem deepeningPhase_pool_prefix (s : Nat → List Cand) (injected : List Cand)
    (skip : Bool) (n : Nat) :
    ∃ extra, (deepeningPhase s injected skip n).1 = injected ++ extra := by
  have hp1 : ∃ e0, (if skip then injected else injected ++ s n) = injected ++ e0 := by
    cases skip with
    | true => exact ⟨[], by simp⟩
    | false => exact ⟨s n, rfl⟩
  obtain ⟨e0, he0⟩ := hp1
  have hphase : deepeningPhase s injected skip n =
      if needsDeepening (if skip then injected else injected ++ s n) skip
      then deepenAux s (max_depth_levels - 1) n (if skip then injected else injected ++ s n)
      else ((if skip then injected else injected ++ s n), []) := rfl
  rw [hphase]
  by_cases hneed : needsDeepening (if skip then injected else injected ++ s n) skip = true
  · rw [if_pos hneed]
    obtain ⟨ex, hex⟩ :=
      deepenAux_pool_prefix s (max_depth_levels - 1) n
        (if skip then injected else injected ++ s n)
    exact ⟨e0 ++ ex, by rw [hex, he0, List.append_assoc]⟩
  · rw [if_neg hneed]
    exact ⟨e0, he0⟩

/-- The first candidate carrying any page content occurring in the first
segment of a deduplicated concatenation survives deduplication and comes
from that first segment. -/
theorem dedupAux_mem_firstSeg :
    ∀ (l1 l2 : List Cand) (seen : List String) (C : String),
      (∃ x ∈ l1, x.1.page_content = C) → seen.contains C = false →
      ∃ y ∈ dedupAux (l1 ++ l2) seen, y ∈ l1 ∧ y.1.page_content = C := by
  intro l1
  induction l1 with
  | nil =>
    rintro l2 seen C ⟨x, hx, -⟩ -
    exact absurd hx (List.not_mem_nil x)
  | cons a l ih =>
    rintro l2 seen C ⟨x, hx, hC⟩ hseen
    obtain ⟨d, s⟩ := a
    rw [List.cons_append]
    have hstep : dedupAux ((d, s) :: (l ++ l2)) seen =
        if seen.contains d.page_content = true then dedupAux (l ++ l2) seen
        else (d, s) :: dedupAux (l ++ l2) (d.page_content :: seen) := rfl
    by_cases hc : seen.contains d.page_content = true
    · rw [hstep, if_pos hc]
      rcases List.mem_cons.mp hx with hxa | hxl
      · have hdc2 : d.page_content = C := by rw [← hC, hxa]
        rw [← hdc2] at hseen
        rw [hseen] at hc
        exact absurd hc Bool.false_ne_true
      · obtain ⟨y, hy, hyl, hyC⟩ := ih l2 seen C ⟨x, hxl, hC⟩ hseen
        exact ⟨y, hy, List.mem_cons_of_mem _ hyl, hyC⟩
    · rw [hstep, if_neg hc]
      by_cases hdC : d.page_content = C
      · exact ⟨(d, s), List.mem_cons_self _ _, List.mem_cons_self _ _, hdC⟩
      · rcases List.mem_cons.mp hx with hxa | hxl
        · exact absurd (by rw [← hC, hxa] : d.page_content = C) hdC
        · have hseen2 : (d.page_content :: seen).contains C = false := by
            rw [List.contains_cons]
            have hbeq : (C == d.page_content) = false :=
              beq_eq_false_iff_ne.mpr (fun hh => hdC hh.symm)
            rw [hbeq, hseen]
            rfl
          obtain ⟨y, hy, hyl, hyC⟩ := ih l2 (d.page_content :: seen) C ⟨x, hxl, hC⟩ hseen2
          exact ⟨y, List.mem_cons_of_mem _ hy, List.mem_cons_of_mem _ hyl, hyC⟩

/-- Specialisation of `dedupAux_mem_firstSeg` to `deduplicate_results`. -/
theorem dedup_append_mem (l1 l2 : List Cand) (C : String)
    (h : ∃ x ∈ l1, x.1.page_content = C) :
    ∃ y ∈ deduplicate_results (l1 ++ l2), y ∈ l1 ∧ y.1.page_content = C :=
  dedupAux_mem_firstSeg l1 l2 [] C h rfl

/-- C2 (code-bug evidence): the query `"what is section 302?"` matches the
registered keyword `"302"`, so the candidate pool does contain the
synthesised gold document at distance 0.0 — the best possible score, as
the inline comment promises ("unbeatable score ... to ensure it survives
reranking/sorting"). But `rerank_results` discards the injected score and
ranks purely by the cross-encoder output, so with a reranker that scores
the competing commentary chunk higher, the final ranking puts the
commentary chunk on top and the gold candidate below it (and with more
than `top_k` competitors it would be dropped altogether): the injected
candidate is not at the top of the final ranking. -/
theorem C2_gold_candidate_not_top_of_final_ranking :
    ((goldDoc, (0 : ℚ)) ∈ (retrieve_context envC2 "what is section 302?" 50 "default"
        (some qcSimple)).pool) ∧
    substrL e302.content.toList goldDoc.page_content.toList = true ∧
    (retrieve_context envC2 "what is section 302?" 50 "default" (some qcSimple)).final =
      [(docCommentary, mkRat 9 10), (goldDoc, mkRat 1 10)] := by decide

/-- C3 counterexample: on the specification's own scenario A — the query
`"what is section 302?"` with a section-index entry registered under
keyword `"302"` — the exact-match path triggers and the gold document is
both in the pool and the entire returned result, yet one
`similarity_search_with_score` call is still issued (the level-1 general
fan-out over the single shard): the claim that no vector-search calls are
made is false. -/
theorem C3_vector_search_still_called_counterexample :
    ((goldDoc, (0 : ℚ)) ∈ (retrieve_context envC3 "what is section 302?" 50 "default"
        (some qcSimple)).pool) ∧
    (retrieve_context envC3 "what is section 302?" 50 "default" (some qcSimple)).final =
      [(goldDoc, 0)] ∧
    (retrieve_context envC3 "what is section 302?" 50 "default" (some qcSimple)).simCalls = 1 := by
  decide

/-- C3 (corrected): whenever a section-index keyword matches the query,
the exact-match path injects the gold document and a candidate carrying
exactly its text (hence containing the indexed section's content) at
distance 0 survives into the reranker's candidate pool; but the injection
does not suppress vector search — when the uploads index finds nothing
(so no core-document match sets `skip_general_search`) and at least one
shard exists, at least one `similarity_search_with_score` call is always
issued. -/
theorem C3_exact_match_injects_but_search_runs (env : RetrievalEnv) (query : String)
    (n : Nat) (persona : String) (qcOpt : Option QueryComplexity)
    (idx : List SectionEntry) (e : SectionEntry) (kw : String)
    (hidx : env.sectionsIndex = some idx) (he : e ∈ idx) (hkw : kw ∈ e.keywords)
    (hmatch : substrL (lowerL kw.toList) (lowerL query.toList) = true)
    (huploads : search_uploads_index query env.uploadsDb = [])
    (hdbs : env.dbs ≠ []) :
    (∃ p ∈ (retrieve_context env query n persona qcOpt).pool,
        p.2 = 0 ∧ p.1.page_content = (mkExactDoc e).page_content ∧
        substrL e.content.toList p.1.page_content.toList = true) ∧
    0 < (retrieve_context env query n persona qcOpt).simCalls := by
  have h05 : strategy05 query env.uploadsDb env.dbs = ([], false, 0) :=
    strategy05_of_no_match query env.uploadsDb env.dbs huploads
  constructor
  · obtain ⟨rest, hrest⟩ :
        ∃ rest, (retrieve_context env query n persona qcOpt).pool =
          deduplicate_results ((strategy0 env.sectionsIndex query ++
            (strategy05 query env.uploadsDb env.dbs).1) ++ rest) := by
      obtain ⟨extra, hextra⟩ :=
        deepeningPhase_pool_prefix
          (fun k => (env.dbs.map (fun db => db.search query k)).flatten)
          (strategy0 env.sectionsIndex query ++ (strategy05 query env.uploadsDb env.dbs).1)
          (strategy05 query env.uploadsDb env.dbs).2.1 n
      unfold retrieve_context
      dsimp only
      rw [hextra, List.append_assoc]
      exact ⟨_, rfl⟩
    rw [hrest, h05]
    dsimp only
    rw [List.append_nil]
    have hmem : ∃ x ∈ strategy0 env.sectionsIndex query,
        x.1.page_content = (mkExactDoc e).page_content := by
      rw [hidx]
      exact ⟨(mkExactDoc e, 0), mem_strategy0 idx e kw query he hkw hmatch, rfl⟩
    obtain ⟨y, hy, hy0, hyC⟩ :=
      dedup_append_mem (strategy0 env.sectionsIndex query) rest
        (mkExactDoc e).page_content hmem
    refine ⟨y, hy, (strategy0_shape env.sectionsIndex query y hy0).1, hyC, ?_⟩
    rw [hyC]
    exact mkExactDoc_content_substr e
  · have hlen : 0 < env.dbs.length := List.length_pos.mpr hdbs
    unfold retrieve_context
    dsimp only
    rw [h05]
    dsimp only
    simp only [Bool.false_eq_true, if_false]
    omega

/-- Witness for the corrected C3: instantiated on scenario A with one
empty shard, the matched entry's gold text is in the pool at distance 0
and the call count is positive. -/
theorem C3_exact_match_injects_but_search_runs_witness :
    (∃ p ∈ (retrieve_context envC3 "what is section 302?" 50 "default"
        (some qcSimple)).pool,
        p.2 = 0 ∧ p.1.page_content = (mkExactDoc e302).page_content ∧
        substrL e302.content.toList p.1.page_content.toList = true) ∧
    0 < (retrieve_context envC3 "what is section 302?" 50 "default"
        (some qcSimple)).simCalls :=
  C3_exact_match_injects_but_search_runs envC3 "what is section 302?" 50 "default"
    (some qcSimple) [e302] e302 "302" rfl (by decide) (by decide) (by decide)
    (by decide) (by simp [envC3])
